import Mathlib

/-!
Verification of the EcoJAX gridworld environment
(src/ecojax/environment/gridworld.py) against its specification.

The per-tick transition engine is embedded shallowly:

* machine floats for energies, plant masses and appearances become `ℚ`
  (the claims under study are exact arithmetic identities, not rounding
  statements);
* integer arrays (positions, orientations, ages, counts) become `ℕ`;
* an agent-slot array of capacity `n` becomes a bundle of functions
  `Fin n → _`;
* every JAX random draw that feeds a claim is an explicit input: the
  per-agent infant Bernoulli successes for moving and eating, the
  per-cell plant regrowth Bernoulli outcomes, and the appearance noise.
  The probabilities behind those draws only shape their distribution,
  which is outside the scope of the functional claims treated here;
* `jnp` scatter-adds become sums over `Fin n`, `jnp` scatter-writes
  become folds of `Function.update` in the iteration order of the
  source, and out-of-range indices are dropped (scatter) or clamped
  (gather) exactly as XLA does.

Rendering (`get_RGB_map`), metric aggregation and the video writer are
outside the modelled core, as are the `sine`, `random` and `brownian`
sun methods (no claim touches them).
-/

/-- `jnp.clip(x, lo, hi)`, i.e. `min hi (max lo x)` (numpy applies the
lower bound first, then the upper bound). -/
def clipQ (x lo hi : ℚ) : ℚ := min hi (max lo x)

/-- The discrete actions recognised by the environment.  The source
indexes actions by their position in `config["list_actions"]`; the
membership tests `"eat" in self.list_actions` etc. are carried by the
flags `hasEat`, `hasTransfer`, `hasReproduce` of `EnvConfig`. -/
inductive AgentAction where
  | forward
  | left
  | right
  | eat
  | idle
  | transfer
  | reproduce
deriving DecidableEq, Repr

/-- The construction-time parameters of `GridworldEnv` that the
per-tick transition reads (`self.width`, `self.height`, energy
constants, infancy parameters, occupancy mode, and which optional
actions are present in `list_actions`). -/
structure EnvConfig where
  height : ℕ
  width : ℕ
  allowMultipleAgentsPerTile : Bool
  hasEat : Bool
  hasTransfer : Bool
  hasReproduce : Bool
  ageMax : ℕ
  energyMax : ℚ
  energyInitial : ℚ
  energyLossIdle : ℚ
  energyLossAction : ℚ
  energyFood : ℚ
  energyThrDeath : ℚ
  energyReqReprod : ℚ
  energyCostReprod : ℚ
  energyTransferLoss : ℚ
  energyTransferGain : ℚ
  infancyDuration : ℕ
  infantFoodEnergyMult : ℚ
deriving Repr

/-- The per-slot agent arrays of `AgentGridworld`.  The appearance
vector is embedded one-dimensionally (its dimension plays no role in
any claim); the parent field stores `n` as the no-parent fill value
`self.fill_value = self.n_agents_max`. -/
structure Agents (n : ℕ) where
  positions : Fin n → ℕ × ℕ
  orientation : Fin n → ℕ
  areExisting : Fin n → Bool
  energy : Fin n → ℚ
  age : Fin n → ℕ
  appearance : Fin n → ℚ
  parent : Fin n → ℕ

/-- The mutable per-tick state of `StateEnvGridworld` restricted to the
channels the claims read: the plants channel, the agents occupancy
channel, the timestep, and the agent arrays.  The sun latitude and the
video buffer are modelled by the standalone functions
`stepUpdateSunLinearLatitude` and `stepVideoUpdate` below; the mean-age
and mean-appearance channels feed no claim. -/
structure EnvState (n : ℕ) where
  timestep : ℕ
  mapPlants : ℕ × ℕ → ℚ
  mapAgents : ℕ × ℕ → ℕ
  agents : Agents n

/-- Per-cell count of existing agents: the scatter-add
`zeros.at[positions].add(are_existing)` used by `update_agent_map`
inside `step` and by `reset`. -/
def occupancyCountA {n : ℕ} (ag : Agents n) (c : ℕ × ℕ) : ℕ :=
  ∑ j : Fin n, if ag.positions j = c ∧ ag.areExisting j = true then 1 else 0

/-- The helper `update_agent_map` of `step`: rebuild the agents
occupancy channel from the current positions and existence mask. -/
def updateAgentMap {n : ℕ} (s : EnvState n) : EnvState n :=
  { s with mapAgents := fun c => occupancyCountA s.agents c }

/-- `get_facing_pos`: the cell one step ahead of `pos` in direction
`ori`, with toroidal wrap.  The source computes the unit vector as
`[cos(ori*π/2), -sin(ori*π/2)]` cast to int, which is `(1,0)`, `(0,-1)`,
`(-1,0)`, `(0,1)` for `ori % 4 = 0,1,2,3`, and reduces each coordinate
with the python modulo (nonnegative remainder, `Int.emod` here). -/
def getFacingPos (cfg : EnvConfig) (pos : ℕ × ℕ) (ori : ℕ) : ℕ × ℕ :=
  let d : ℤ × ℤ :=
    match ori % 4 with
    | 0 => (1, 0)
    | 1 => (0, -1)
    | 2 => (-1, 0)
    | _ => (0, 1)
  ((((pos.1 : ℤ) + d.1) % (cfg.height : ℤ)).toNat,
   (((pos.2 : ℤ) + d.2) % (cfg.width : ℤ)).toNat)

/-- The flattened tile index `row * W + col` used by both collision
resolutions (`facing_tiles = facing_positions[:,0] * W +
facing_positions[:,1]`). -/
def tileIndex (cfg : EnvConfig) (c : ℕ × ℕ) : ℕ :=
  c.1 * cfg.width + c.2

/-- The facing cell of slot `i` computed from the current agent
arrays (used by movement, transfer and reproduction alike). -/
def facingPosOf {n : ℕ} (cfg : EnvConfig) (s : EnvState n) (i : Fin n) : ℕ × ℕ :=
  getFacingPos cfg (s.agents.positions i) (s.agents.orientation i)

/-- Flattened facing tile of slot `i`. -/
def facingTileOf {n : ℕ} (cfg : EnvConfig) (s : EnvState n) (i : Fin n) : ℕ :=
  tileIndex cfg (facingPosOf cfg s i)

/-- The per-agent infant Bernoulli success used by
`compute_new_positions`: the draw is `bernoulli(p)` with `p =
infant_move_prob` for infants and `p = 1.0` (surely true) for adults,
so only the infant outcomes `moveDraw` remain random. -/
def infantMoveSuccess {n : ℕ} (cfg : EnvConfig) (ages : Fin n → ℕ)
    (moveDraw : Fin n → Bool) (i : Fin n) : Bool :=
  if ages i < cfg.infancyDuration then moveDraw i else true

/-- `compute_new_positions`: a slot moves to its facing cell when its
(already conflict-filtered) moving flag holds and its infant Bernoulli
draw succeeds; otherwise it stays. -/
def computeNewPositions {n : ℕ} (cfg : EnvConfig)
    (curr facing : Fin n → ℕ × ℕ) (isMoving : Fin n → Bool)
    (ages : Fin n → ℕ) (moveDraw : Fin n → Bool) : Fin n → ℕ × ℕ :=
  fun i =>
    if isMoving i && infantMoveSuccess cfg ages moveDraw i then facing i else curr i

/-- `compute_new_orientations`: turning left adds 1, turning right adds
3, modulo 4. -/
def computeNewOrientations {n : ℕ} (ori : Fin n → ℕ) (actions : Fin n → AgentAction) :
    Fin n → ℕ :=
  fun i =>
    (ori i + (if actions i = AgentAction.left then 1 else 0)
           + 3 * (if actions i = AgentAction.right then 1 else 0)) % 4

/-- `move_agents_allow_multiple_occupancy`: every slot choosing
`forward` moves (subject only to the infant draw); no conflict check. -/
def moveAgentsAllowMultipleOccupancy {n : ℕ} (cfg : EnvConfig) (s : EnvState n)
    (actions : Fin n → AgentAction) (moveDraw : Fin n → Bool) :
    (Fin n → ℕ × ℕ) × (Fin n → ℕ) × (Fin n → ℕ × ℕ) :=
  let facing := facingPosOf cfg s
  let isMoving : Fin n → Bool := fun i => decide (actions i = AgentAction.forward)
  (computeNewPositions cfg s.agents.positions facing isMoving s.agents.age moveDraw,
   computeNewOrientations s.agents.orientation actions,
   facing)

/-- The `same_as_prev` mark of `move_agents_enforce_single_occupancy`
(and of the identical block of `step_reproduce_agents`), mapped back to
the unsorted slot order.  The source `jnp.lexsort`s the pairs
`(facing_tile, slot_index)`, flags every sorted entry whose predecessor
carries the same tile, and scatters the flags back through `argsort`.
Because the lexicographic order on those pairs restricted to one tile
is the slot-index order, slot `i` ends up flagged exactly when some
slot `j < i` (moving or not, existing or not) has the same facing
tile; the embedding states the flag that way. -/
def sameFacingTileAsPrev {n : ℕ} (cfg : EnvConfig) (s : EnvState n) (i : Fin n) : Bool :=
  decide (∃ j : Fin n, j < i ∧ facingTileOf cfg s j = facingTileOf cfg s i)

/-- The conflict-filtered `is_moving` flag of
`move_agents_enforce_single_occupancy`: the slot chose `forward`, its
facing cell is empty in the occupancy snapshot `s.mapAgents`, and it is
not marked by the same-tile deduplication. -/
def singleOccIsMoving {n : ℕ} (cfg : EnvConfig) (s : EnvState n)
    (actions : Fin n → AgentAction) (i : Fin n) : Bool :=
  if sameFacingTileAsPrev cfg s i then false
  else
    decide (actions i = AgentAction.forward)
      && decide (s.mapAgents (facingPosOf cfg s i) = 0)

/-- `move_agents_enforce_single_occupancy`: the deduplicated movers go
to their facing cells (subject to the infant draw), everybody else
stays; orientations turn unconditionally. -/
def moveAgentsEnforceSingleOccupancy {n : ℕ} (cfg : EnvConfig) (s : EnvState n)
    (actions : Fin n → AgentAction) (moveDraw : Fin n → Bool) :
    (Fin n → ℕ × ℕ) × (Fin n → ℕ) × (Fin n → ℕ × ℕ) :=
  (computeNewPositions cfg s.agents.positions (facingPosOf cfg s)
     (singleOccIsMoving cfg s actions) s.agents.age moveDraw,
   computeNewOrientations s.agents.orientation actions,
   facingPosOf cfg s)

/-- The movement dispatch of `step_action_agents`: multi- or
single-occupancy resolution according to the configuration flag. -/
def moveResultOf {n : ℕ} (cfg : EnvConfig) (s : EnvState n)
    (actions : Fin n → AgentAction) (moveDraw : Fin n → Bool) :
    (Fin n → ℕ × ℕ) × (Fin n → ℕ) × (Fin n → ℕ × ℕ) :=
  if cfg.allowMultipleAgentsPerTile then
    moveAgentsAllowMultipleOccupancy cfg s actions moveDraw
  else
    moveAgentsEnforceSingleOccupancy cfg s actions moveDraw

/-- Post-movement positions of the tick. -/
def newPositionsOf {n : ℕ} (cfg : EnvConfig) (s : EnvState n)
    (actions : Fin n → AgentAction) (moveDraw : Fin n → Bool) : Fin n → ℕ × ℕ :=
  (moveResultOf cfg s actions moveDraw).1

/-- Post-movement orientations of the tick. -/
def newOrientationsOf {n : ℕ} (s : EnvState n)
    (actions : Fin n → AgentAction) : Fin n → ℕ :=
  computeNewOrientations s.agents.orientation actions

/-- `are_agents_eating` after the infant Bernoulli: the slot exists,
chose `eat` (an action only present when `hasEat`), and its infant eat
draw succeeds (`p = 1.0`, surely true, for adults). -/
def eatingSuccess {n : ℕ} (cfg : EnvConfig) (s : EnvState n)
    (actions : Fin n → AgentAction) (eatDraw : Fin n → Bool) (i : Fin n) : Bool :=
  cfg.hasEat && s.agents.areExisting i && decide (actions i = AgentAction.eat)
    && (if s.agents.age i < cfg.infancyDuration then eatDraw i else true)

/-- `map_agents_try_eating`: the scatter-add counting, per cell, the
eating agents whose new position is that cell. -/
def numTryEatingAt {n : ℕ} (cfg : EnvConfig) (s : EnvState n)
    (actions : Fin n → AgentAction) (moveDraw eatDraw : Fin n → Bool) (c : ℕ × ℕ) : ℕ :=
  ∑ j : Fin n,
    if newPositionsOf cfg s actions moveDraw j = c ∧
       eatingSuccess cfg s actions eatDraw j = true then 1 else 0

/-- `food_energy_bonus`: the per-agent share
`energy_food * plant_mass / max(1, k)` of the cell under the new
position of the agent, zero for non-eaters, scaled by `infant_food_energy_mult`
for infants. -/
def foodEnergyBonus {n : ℕ} (cfg : EnvConfig) (s : EnvState n)
    (actions : Fin n → AgentAction) (moveDraw eatDraw : Fin n → Bool) (i : Fin n) : ℚ :=
  (if eatingSuccess cfg s actions eatDraw i then
      cfg.energyFood * s.mapPlants (newPositionsOf cfg s actions moveDraw i) /
        ((max 1 (numTryEatingAt cfg s actions moveDraw eatDraw
          (newPositionsOf cfg s actions moveDraw i)) : ℕ) : ℚ)
    else 0)
  * (if s.agents.age i < cfg.infancyDuration then cfg.infantFoodEnergyMult else 1)

/-- The plants channel right after the eating block:
`map_plants -= map_agents_try_eating * map_plants` followed by
`clip(·, 0, 1)`; unchanged when `eat` is not an available action. -/
def mapPlantsAfterEating {n : ℕ} (cfg : EnvConfig) (s : EnvState n)
    (actions : Fin n → AgentAction) (moveDraw eatDraw : Fin n → Bool) (c : ℕ × ℕ) : ℚ :=
  if cfg.hasEat then
    clipQ (s.mapPlants c -
      (numTryEatingAt cfg s actions moveDraw eatDraw c : ℚ) * s.mapPlants c) 0 1
  else s.mapPlants c

/-- `are_agents_transferring`: the slot exists and chose `transfer`
(an action only present when `hasTransfer`). -/
def areTransferring {n : ℕ} (cfg : EnvConfig) (s : EnvState n)
    (actions : Fin n → AgentAction) (i : Fin n) : Bool :=
  cfg.hasTransfer && s.agents.areExisting i && decide (actions i = AgentAction.transfer)

/-- Number of existing agents on the facing cell of donor `i`
(`jnp.sum(are_receiving)`); transfer targets are computed from the
pre-movement positions and orientations. -/
def numReceiving {n : ℕ} (cfg : EnvConfig) (s : EnvState n) (i : Fin n) : ℕ :=
  ∑ j : Fin n,
    if s.agents.areExisting j = true ∧ s.agents.positions j = facingPosOf cfg s i
    then 1 else 0

/-- `is_transfer`: the donor transfers and at least one existing agent
occupies its facing cell (`jnp.any(are_receiving)`). -/
def isTransferActive {n : ℕ} (cfg : EnvConfig) (s : EnvState n)
    (actions : Fin n → AgentAction) (i : Fin n) : Bool :=
  areTransferring cfg s actions i && decide (0 < numReceiving cfg s i)

/-- The summed `delta_energy` of the transfer block: each active donor
`i` loses `energy_transfer_loss` and every receiving agent on its
facing cell gains `energy_transfer_gain / max(1, recipient_count)`. -/
def transferDelta {n : ℕ} (cfg : EnvConfig) (s : EnvState n)
    (actions : Fin n → AgentAction) (j : Fin n) : ℚ :=
  ∑ i : Fin n,
    ((if isTransferActive cfg s actions i = true ∧ j = i
       then -cfg.energyTransferLoss else 0)
     + (if isTransferActive cfg s actions i = true ∧ s.agents.areExisting j = true ∧
           s.agents.positions j = facingPosOf cfg s i
         then cfg.energyTransferGain / ((max 1 (numReceiving cfg s i) : ℕ) : ℚ)
         else 0))

/-- The energy of slot `i` after the food bonus, the transfer deltas
and the idle/action costs, before clipping.  Idle existing agents pay
`energy_loss_idle`; every other existing, non-transferring agent pays
`energy_loss_action`. -/
def energyAfterActionsPreClip {n : ℕ} (cfg : EnvConfig) (s : EnvState n)
    (actions : Fin n → AgentAction) (moveDraw eatDraw : Fin n → Bool) (i : Fin n) : ℚ :=
  let e1 := s.agents.energy i +
    (if cfg.hasEat then foodEnergyBonus cfg s actions moveDraw eatDraw i else 0)
  let e2 := e1 + (if cfg.hasTransfer then transferDelta cfg s actions i else 0)
  let idle := s.agents.areExisting i && decide (actions i = AgentAction.idle)
  let notIdle := (s.agents.areExisting i && !idle) && !(areTransferring cfg s actions i)
  e2 - (if idle then cfg.energyLossIdle else 0)
     - (if notIdle then cfg.energyLossAction else 0)

/-- `energy_agents_new` at the end of the action phase:
`jnp.clip(·, 0, energy_max)`. -/
def energyAfterActions {n : ℕ} (cfg : EnvConfig) (s : EnvState n)
    (actions : Fin n → AgentAction) (moveDraw eatDraw : Fin n → Bool) (i : Fin n) : ℚ :=
  clipQ (energyAfterActionsPreClip cfg s actions moveDraw eatDraw i) 0 cfg.energyMax

/-- The death test of `step_action_agents`: a slot stays existing iff
its clipped post-cost energy exceeds `energy_thr_death`, it was
existing, and its (tick-start) age is below `age_max`. -/
def areExistingAfterActions {n : ℕ} (cfg : EnvConfig) (s : EnvState n)
    (actions : Fin n → AgentAction) (moveDraw eatDraw : Fin n → Bool) (i : Fin n) : Bool :=
  decide (cfg.energyThrDeath < energyAfterActions cfg s actions moveDraw eatDraw i)
    && s.agents.areExisting i
    && decide (s.agents.age i < cfg.ageMax)

/-- `step_action_agents`: movement, eating, transfers, idle/action
costs, clipping, the death test, appearance zeroing of dead slots, and
the plant resampling of `step_grow_plants` (whose per-cell Bernoulli
outcome is the input `growthDraw`; the growth probabilities only shape
its distribution).  The agents occupancy channel is deliberately left
stale here — `step` refreshes it afterwards with `update_agent_map`. -/
def stepActionAgents {n : ℕ} (cfg : EnvConfig) (s : EnvState n)
    (actions : Fin n → AgentAction) (moveDraw eatDraw : Fin n → Bool)
    (growthDraw : ℕ × ℕ → Bool) : EnvState n :=
  { timestep := s.timestep
    mapPlants := fun c => if growthDraw c then 1 else 0
    mapAgents := s.mapAgents
    agents :=
      { positions := newPositionsOf cfg s actions moveDraw
        orientation := newOrientationsOf s actions
        areExisting := areExistingAfterActions cfg s actions moveDraw eatDraw
        energy := energyAfterActions cfg s actions moveDraw eatDraw
        age := s.agents.age
        appearance := fun i =>
          s.agents.appearance i *
            (if areExistingAfterActions cfg s actions moveDraw eatDraw i then 1 else 0)
        parent := s.agents.parent } }

/-- Reproduction eligibility before any spatial filtering: existing,
energy strictly above `energy_req_reprod`, age at least
`infancy_duration`. -/
def reprodStage0 {n : ℕ} (cfg : EnvConfig) (s : EnvState n) (i : Fin n) : Bool :=
  decide (cfg.energyReqReprod < s.agents.energy i)
    && decide (cfg.infancyDuration ≤ s.agents.age i)
    && s.agents.areExisting i

/-- Eligibility after the occupancy check: the facing cell must be
empty in the occupancy channel `s.mapAgents` of the state handed to
`step_reproduce_agents`. -/
def reprodAfterMap {n : ℕ} (cfg : EnvConfig) (s : EnvState n) (i : Fin n) : Bool :=
  reprodStage0 cfg s i && decide (s.mapAgents (facingPosOf cfg s i) = 0)

/-- Eligibility after the same-tile deduplication.  As in movement, the
source lexsorts all pairs `(facing_tile, slot_index)` and zeroes every
entry whose sorted predecessor has the same tile, which marks slot `i`
exactly when some slot `j < i` shares its facing tile. -/
def reprodAfterDedup {n : ℕ} (cfg : EnvConfig) (s : EnvState n) (i : Fin n) : Bool :=
  if sameFacingTileAsPrev cfg s i then false else reprodAfterMap cfg s i

/-- `agents_reprod` just before the capacity cap: when a `reproduce`
action exists the slot must also have chosen it. -/
def agentsReprodPreCap {n : ℕ} (cfg : EnvConfig) (s : EnvState n)
    (actions : Fin n → AgentAction) (i : Fin n) : Bool :=
  if cfg.hasReproduce then
    reprodAfterDedup cfg s i && decide (actions i = AgentAction.reproduce)
  else reprodAfterDedup cfg s i

/-- `n_agents_trying_reprod = jnp.sum(agents_reprod)`. -/
def nTryingReprod {n : ℕ} (cfg : EnvConfig) (s : EnvState n)
    (actions : Fin n → AgentAction) : ℕ :=
  ∑ i : Fin n, if agentsReprodPreCap cfg s actions i then 1 else 0

/-- `n_ghost_agents = jnp.sum(~are_existing_agents)` of the state handed
to `step_reproduce_agents`. -/
def nGhostOf {n : ℕ} (s : EnvState n) : ℕ :=
  ∑ i : Fin n, if s.agents.areExisting i then 0 else 1

/-- `n_newborns = min(n_agents_trying_reprod, n_ghost_agents)`. -/
def nNewbornsOf {n : ℕ} (cfg : EnvConfig) (s : EnvState n)
    (actions : Fin n → AgentAction) : ℕ :=
  min (nTryingReprod cfg s actions) (nGhostOf s)

/-- `cumsum_repro_attempts` at slot `i`: the inclusive cumulative count
of pre-capacity reproducers up to `i`. -/
def cumsumReprod {n : ℕ} (cfg : EnvConfig) (s : EnvState n)
    (actions : Fin n → AgentAction) (i : Fin n) : ℕ :=
  ∑ j : Fin n, if j ≤ i ∧ agentsReprodPreCap cfg s actions j = true then 1 else 0

/-- The final reproducing set: pre-capacity reproducers whose cumulative
count does not exceed `n_newborns`. -/
def agentsReprodFinal {n : ℕ} (cfg : EnvConfig) (s : EnvState n)
    (actions : Fin n → AgentAction) (i : Fin n) : Bool :=
  decide (cumsumReprod cfg s actions i ≤ nNewbornsOf cfg s actions)
    && agentsReprodPreCap cfg s actions i

/-- `jnp.where(~are_existing_agents, ...)`: the ghost slot indices in
increasing order (the fill entries of the source are modelled by list
truncation below). -/
def ghostListOf {n : ℕ} (s : EnvState n) : List (Fin n) :=
  (List.finRange n).filter (fun i => !s.agents.areExisting i)

/-- `jnp.where(agents_reprod, ...)`: the finally reproducing slot
indices in increasing order. -/
def reprodListOf {n : ℕ} (cfg : EnvConfig) (s : EnvState n)
    (actions : Fin n → AgentAction) : List (Fin n) :=
  (List.finRange n).filter (fun i => agentsReprodFinal cfg s actions i)

/-- The newborn pairing: slot `i` is the `k`-th newborn when it is the
`k`-th ghost index and `k < n_newborns`.  The scatter writes of the
source at `indices_newborn_agents_FILLED` drop the out-of-range fill
entries, which truncating at `n_newborns` reproduces. -/
def newbornSlotOf {n : ℕ} (cfg : EnvConfig) (s : EnvState n)
    (actions : Fin n → AgentAction) (i : Fin n) : Option ℕ :=
  (List.range (nNewbornsOf cfg s actions)).find?
    (fun k => (ghostListOf s)[k]? = some i)

/-- `are_newborns_agents`: slot `i` is a newborn when it is one of the
first `n_newborns` ghost indices. -/
def areNewbornsOf {n : ℕ} (cfg : EnvConfig) (s : EnvState n)
    (actions : Fin n → AgentAction) (i : Fin n) : Bool :=
  (newbornSlotOf cfg s actions i).isSome

/-- The parent slot of the `k`-th newborn: the `k`-th finally
reproducing index (the fill value `n` would only appear in the
unreachable case of fewer reproducers than newborns). -/
def parentOfNewbornSlot {n : ℕ} (cfg : EnvConfig) (s : EnvState n)
    (actions : Fin n → AgentAction) (k : ℕ) : ℕ :=
  match (reprodListOf cfg s actions)[k]? with
  | some p => p.val
  | none => n

/-- The result bundle of `step_reproduce_agents` (and, re-exported, of
`step`): the updated state, the final reproducing mask, the newborn
mask, and the per-slot parent indices of `EcoInformation` (fill value
`n` for slots that are not newborns). -/
structure ReprodResult (n : ℕ) where
  state : EnvState n
  agentsReprod : Fin n → Bool
  areNewborns : Fin n → Bool
  indexesParents : Fin n → ℕ

/-- `step_reproduce_agents`: eligibility filtering, occupancy and
same-tile collision filtering, the capacity cap, the reproduction
charge, and the newborn initialisation onto the lowest ghost slots.
`noise` is the `0.001`-scaled appearance noise row of each newborn.
The occupancy and plants channels are untouched here (`step` refreshes
the occupancy channel afterwards). -/
def stepReproduceAgents {n : ℕ} (cfg : EnvConfig) (s : EnvState n)
    (actions : Fin n → AgentAction) (noise : ℕ → ℚ) : ReprodResult n :=
  let final := agentsReprodFinal cfg s actions
  let slotOf := newbornSlotOf cfg s actions
  let parentAt := parentOfNewbornSlot cfg s actions
  { state :=
      { s with agents :=
        { positions := fun i =>
            match slotOf i with
            | some k =>
                match (reprodListOf cfg s actions)[k]? with
                | some p => facingPosOf cfg s p
                | none => s.agents.positions i
            | none => s.agents.positions i
          orientation := s.agents.orientation
          areExisting := fun i => s.agents.areExisting i || (slotOf i).isSome
          energy := fun i =>
            match slotOf i with
            | some _ => cfg.energyInitial
            | none =>
                s.agents.energy i - (if final i then cfg.energyCostReprod else 0)
          age := fun i =>
            match slotOf i with
            | some _ => 0
            | none => s.agents.age i
          appearance := fun i =>
            match slotOf i with
            | some k =>
                match (reprodListOf cfg s actions)[k]? with
                | some p => s.agents.appearance p + noise k
                | none => s.agents.appearance i
            | none => s.agents.appearance i
          parent := fun i =>
            match slotOf i with
            | some k => parentAt k
            | none => s.agents.parent i } }
    agentsReprod := final
    areNewborns := fun i => (slotOf i).isSome
    indexesParents := fun i =>
      match slotOf i with
      | some k => parentAt k
      | none => n }

/-- The full per-tick transition of `step` restricted to the modelled
channels: action phase, occupancy refresh, reproduction phase,
occupancy refresh, timestep increment and age increment.  (The sun
latitude, the mean-age and mean-appearance channels, the rendered
frame and the measures are outside the modelled core.) -/
def stepEnv {n : ℕ} (cfg : EnvConfig) (s : EnvState n)
    (actions : Fin n → AgentAction) (moveDraw eatDraw : Fin n → Bool)
    (growthDraw : ℕ × ℕ → Bool) (noise : ℕ → ℚ) : ReprodResult n :=
  let s1 := updateAgentMap (stepActionAgents cfg s actions moveDraw eatDraw growthDraw)
  let r := stepReproduceAgents cfg s1 actions noise
  let s2 := updateAgentMap r.state
  { r with state :=
      { s2 with
        timestep := s.timestep + 1
        agents := { s2.agents with age := fun i => s2.agents.age i + 1 } } }

/-- The per-cell occupant-index map of `get_observations_agents`: the
scatter `agent_index_map.at[poses].set(arange(n)[::-1])` over the
REVERSED position array with reversed values, so that later writes
(smaller slot indices) override earlier ones; cells without any slot
keep the fill value `n`.  No existence mask is applied: ghost slots
scatter their (stale) positions like everybody else. -/
def agentIndexMap {n : ℕ} (s : EnvState n) : ℕ × ℕ → ℕ :=
  ((List.finRange n).reverse).foldl
    (fun m i => Function.update m (s.agents.positions i) i.val)
    (fun _ => n)

/-- The per-cell parent-pointer map `parent_agents[agent_index_map]`:
a JAX gather clamps the out-of-range fill index `n` to `n - 1`, so an
unoccupied cell reads the parent pointer of the last slot. -/
def agentParentMap {n : ℕ} (s : EnvState n) (hn : 0 < n) (c : ℕ × ℕ) : ℕ :=
  s.agents.parent ⟨min (agentIndexMap s c) (n - 1), by omega⟩

/-- The `linear` branch of `step_update_sun`: the new latitude
`H // 2 + H * t // period`, rounded (the identity on integers) and
wrapped modulo the grid height. -/
def stepUpdateSunLinearLatitude (H P t : ℕ) : ℕ :=
  (H / 2 + H * t / P) % H

/-- The latitude installed by `reset` when the sun method is active:
`H // 2`. -/
def resetLatitudeSun (H : ℕ) : ℕ := H / 2

/-- The video bookkeeping at the end of `step`, line by line: the
buffer is (conditionally) reset by `jax.lax.cond` into `videoCleared`,
but the subsequent write `state_new.video.at[t % n].set(rgb_map)` reads
the original buffer, so `videoCleared` is discarded. -/
def stepVideoUpdate {α : Type} (nSteps : ℕ) (t : ℕ) (video : ℕ → α)
    (zeroFrame frame : α) : ℕ → α :=
  let _videoCleared : ℕ → α :=
    if t % nSteps = 0 then (fun _ => zeroFrame) else video
  let written := Function.update video (t % nSteps) frame
  -- the source assigns the final buffer from the uncleared
  -- `state_new.video`, leaving the cleared buffer unused
  written

/-- The slot positions sampled by `reset`: flat cell indices drawn by
`jax.random.choice(H*W, shape=(n,), replace=False)` (injective, below
`H*W`), unflattened as `(idx // W, idx % W)`. -/
def resetPositions (W : ℕ) {nMax : ℕ} (posIndices : Fin nMax → ℕ) :
    Fin nMax → ℕ × ℕ :=
  fun i => (posIndices i / W, posIndices i % W)

-- ===================== concrete witness data =====================

/-- Configuration used by the concrete witness and counterexample
states: a small grid in single-occupancy mode, adult agents
(`infancy_duration = 0`), and unit energy constants. -/
def cfgW : EnvConfig :=
  { height := 3, width := 3, allowMultipleAgentsPerTile := false,
    hasEat := true, hasTransfer := false, hasReproduce := false,
    ageMax := 100, energyMax := 10, energyInitial := 5,
    energyLossIdle := 1, energyLossAction := 1, energyFood := 1,
    energyThrDeath := 0, energyReqReprod := 1, energyCostReprod := 1,
    energyTransferLoss := 1, energyTransferGain := 1,
    infancyDuration := 0, infantFoodEnergyMult := 1 }

/-- Two existing adult agents on distinct cells of the 3 by 3 grid,
both facing south (orientation 0). -/
def agentsW1 : Agents 2 :=
  { positions := ![(0, 0), (1, 1)], orientation := ![0, 0],
    areExisting := ![true, true], energy := ![5, 5], age := ![5, 5],
    appearance := ![1, 1], parent := ![2, 2] }

/-- Witness state for the movement claim, with a consistent occupancy
channel. -/
def stateW1 : EnvState 2 :=
  { timestep := 0, mapPlants := fun _ => 0,
    mapAgents := fun c => occupancyCountA agentsW1 c, agents := agentsW1 }

/-- An agent with energy one half above the death threshold, used by
the idle-starvation witness. -/
def agentsW2 : Agents 2 :=
  { positions := ![(0, 0), (1, 1)], orientation := ![0, 0],
    areExisting := ![true, true], energy := ![1/2, 5], age := ![5, 5],
    appearance := ![1, 1], parent := ![2, 2] }

/-- Witness state for the idle-starvation scenario. -/
def stateW2 : EnvState 2 :=
  { timestep := 0, mapPlants := fun _ => 0,
    mapAgents := fun c => occupancyCountA agentsW2 c, agents := agentsW2 }

/-- A lone adult agent on a cell with plant mass 1. -/
def agentsW3 : Agents 1 :=
  { positions := ![(0, 0)], orientation := ![0],
    areExisting := ![true], energy := ![5], age := ![5],
    appearance := ![1], parent := ![1] }

/-- Witness state for the lone-eater scenario: every cell carries plant
mass 1. -/
def stateW3 : EnvState 1 :=
  { timestep := 0, mapPlants := fun _ => 1,
    mapAgents := fun c => occupancyCountA agentsW3 c, agents := agentsW3 }

/-- Counterexample state for the reproduction occupancy convention:
slot 0 at `(0,0)` faces the occupied cell `(1,0)`; slot 1 at `(1,0)`
faces the empty cell `(2,0)`; slot 2 is a ghost at `(2,2)`. -/
def agentsC2 : Agents 3 :=
  { positions := ![(0, 0), (1, 0), (2, 2)], orientation := ![0, 0, 1],
    areExisting := ![true, true, false], energy := ![5, 5, 5], age := ![5, 5, 5],
    appearance := ![1, 1, 0], parent := ![3, 3, 3] }

/-- The tick-start state of the occupancy counterexample, with a
consistent agents channel. -/
def stateC2 : EnvState 3 :=
  { timestep := 0, mapPlants := fun _ => 0,
    mapAgents := fun c => occupancyCountA agentsC2 c, agents := agentsC2 }

/-- Actions of the occupancy counterexample: slot 0 idles (and later
reproduces, as no `reproduce` action is configured), slot 1 moves away
from the cell slot 0 faces. -/
def actionsC2 : Fin 3 → AgentAction :=
  ![AgentAction.idle, AgentAction.forward, AgentAction.idle]

/-- The state `stateC2` reaches after the action phase: slot 1 has
moved to `(2,0)`, both existing agents paid one energy unit, and the
agents channel is still the stale tick-start one. -/
def agentsC2a : Agents 3 :=
  { positions := ![(0, 0), (2, 0), (2, 2)], orientation := ![0, 0, 1],
    areExisting := ![true, true, false], energy := ![4, 4, 5], age := ![5, 5, 5],
    appearance := ![1, 1, 0], parent := ![3, 3, 3] }

/-- Post-action-phase state of the occupancy counterexample (the agents
channel still holds the tick-start counts, exactly as
`step_action_agents` leaves it). -/
def stateC2a : EnvState 3 :=
  { timestep := 0, mapPlants := fun _ => 0,
    mapAgents := fun c => occupancyCountA agentsC2 c, agents := agentsC2a }

/-- Counterexample state for the birth-capacity claim: both slots exist
at tick start (no ghost slot), but slot 1 has reached `age_max` and
dies during the action phase, freeing a slot that is recycled in the
same tick. -/
def agentsC3 : Agents 2 :=
  { positions := ![(0, 0), (2, 2)], orientation := ![0, 0],
    areExisting := ![true, true], energy := ![5, 5], age := ![5, 100],
    appearance := ![1, 1], parent := ![2, 2] }

/-- Tick-start state of the capacity counterexample. -/
def stateC3 : EnvState 2 :=
  { timestep := 0, mapPlants := fun _ => 0,
    mapAgents := fun c => occupancyCountA agentsC3 c, agents := agentsC3 }

/-- Actions of the capacity counterexample: both slots idle. -/
def actionsC3 : Fin 2 → AgentAction := ![AgentAction.idle, AgentAction.idle]

/-- The state `stateC3` reaches after the action phase: slot 1 is dead
(age at `age_max`), both paid the idle cost. -/
def agentsC3a : Agents 2 :=
  { positions := ![(0, 0), (2, 2)], orientation := ![0, 0],
    areExisting := ![true, false], energy := ![4, 4], age := ![5, 100],
    appearance := ![1, 0], parent := ![2, 2] }

/-- Post-action-phase state of the capacity counterexample. -/
def stateC3a : EnvState 2 :=
  { timestep := 0, mapPlants := fun _ => 0,
    mapAgents := fun c => occupancyCountA agentsC3 c, agents := agentsC3a }

/-- Counterexample state for the occupant-index-map claim: slot 0 is a
living agent at `(0,0)`; slot 1 is a ghost whose stale position is
`(1,0)` and whose parent pointer is slot 0. -/
def agentsC7 : Agents 2 :=
  { positions := ![(0, 0), (1, 0)], orientation := ![0, 0],
    areExisting := ![true, false], energy := ![5, 5], age := ![5, 5],
    appearance := ![1, 0], parent := ![2, 0] }

/-- State wrapping `agentsC7` with a consistent occupancy channel. -/
def stateC7 : EnvState 2 :=
  { timestep := 0, mapPlants := fun _ => 0,
    mapAgents := fun c => occupancyCountA agentsC7 c, agents := agentsC7 }

-- ===================== theorems =====================

/-- Claim C8: with sun method linear and period `P`, the new latitude at
each tick is rounded (the identity on these integer values) and wrapped
modulo the grid height `H`, and the latitude after tick `P` equals the
latitude at tick 0 (which `reset` sets to `H / 2`), modulo `H`. -/
theorem linear_sun_latitude_periodic (H P : ℕ) (hH : 0 < H) (hP : 0 < P) :
    (∀ t, stepUpdateSunLinearLatitude H P t < H)
    ∧ stepUpdateSunLinearLatitude H P 0 = resetLatitudeSun H
    ∧ stepUpdateSunLinearLatitude H P P = stepUpdateSunLinearLatitude H P 0 := by
  refine ⟨fun t => Nat.mod_lt _ hH, ?_, ?_⟩
  · unfold stepUpdateSunLinearLatitude resetLatitudeSun
    simp [Nat.mod_eq_of_lt (Nat.div_lt_self hH one_lt_two)]
  · unfold stepUpdateSunLinearLatitude
    rw [Nat.mul_div_cancel _ hP]
    simp [Nat.add_mod_right]

/-- Witness for C8 at `H = 10`, `P = 7`. -/
theorem linear_sun_latitude_periodic_witness :
    stepUpdateSunLinearLatitude 10 7 7 = stepUpdateSunLinearLatitude 10 7 0 :=
  (linear_sun_latitude_periodic 10 7 (by decide) (by decide)).2.2

/-- Claim C9, failing input: with buffer length 2 at tick `t = 2`
(`t % 2 = 0`, the start of a cycle) the claim requires all frames of the
previous cycle to be erased before the new frame is written, but the
cleared buffer computed by the `jax.lax.cond` is discarded — the write
goes into the uncleared buffer, so the stale frame `7` at index 1
survives while the new frame `5` lands at index `2 % 2 = 0`. -/
theorem video_buffer_not_cleared_at_cycle_start :
    stepVideoUpdate 2 2 (fun k => if k = 1 then 7 else 0) 0 5 1 = 7
    ∧ stepVideoUpdate 2 2 (fun k => if k = 1 then 7 else 0) 0 5 (2 % 2) = 5 := by
  constructor <;> decide

/-- Claim C10: `reset` draws the flat cell indices of all `nMax` slots
without replacement (injectively) from the `H * W` grid cells, so the
unflattened positions of distinct slots are distinct — in particular no
two existing agents share a cell initially — and such a draw forces the
unstated precondition `nMax ≤ H * W`. -/
theorem reset_positions_distinct_and_capacity (H W nMax : ℕ)
    (posIndices : Fin nMax → ℕ)
    (hinj : Function.Injective posIndices)
    (hrange : ∀ i, posIndices i < H * W) :
    (∀ i j : Fin nMax, i ≠ j →
      resetPositions W posIndices i ≠ resetPositions W posIndices j)
    ∧ nMax ≤ H * W := by
  constructor
  · intro i j hne heq
    apply hne
    apply hinj
    have h1 : posIndices i / W = posIndices j / W := congrArg Prod.fst heq
    have h2 : posIndices i % W = posIndices j % W := congrArg Prod.snd heq
    calc posIndices i = W * (posIndices i / W) + posIndices i % W :=
          (Nat.div_add_mod _ _).symm
      _ = W * (posIndices j / W) + posIndices j % W := by rw [h1, h2]
      _ = posIndices j := Nat.div_add_mod _ _
  · have hinj2 : Function.Injective
        (fun i : Fin nMax => (⟨posIndices i, hrange i⟩ : Fin (H * W))) := by
      intro a b hab
      exact hinj (congrArg Fin.val hab)
    simpa using Fintype.card_le_of_injective _ hinj2

/-- Witness for C10 with two slots on a 2 by 2 grid, flat indices 0 and 3. -/
theorem reset_positions_distinct_and_capacity_witness :
    resetPositions 2 (![0, 3] : Fin 2 → ℕ) 0 ≠ resetPositions 2 ![0, 3] 1 :=
  (reset_positions_distinct_and_capacity 2 2 2 ![0, 3]
    (by decide) (by decide)).1 0 1 (by decide)

/-- Left projection of a true Bool conjunction. -/
theorem bool_and_left {a b : Bool} (h : (a && b) = true) : a = true := by
  cases a
  · simp at h
  · rfl

/-- A cell occupied by an existing agent has positive occupancy count. -/
theorem occupancyCountA_pos {n : ℕ} (ag : Agents n) (j : Fin n)
    (hj : ag.areExisting j = true) : 0 < occupancyCountA ag (ag.positions j) := by
  unfold occupancyCountA
  rw [Nat.pos_iff_ne_zero]
  intro h0
  rw [Finset.sum_eq_zero_iff] at h0
  have hterm := h0 j (Finset.mem_univ j)
  rw [if_pos ⟨rfl, hj⟩] at hterm
  omega

/-- A mover whose conflict-filtered flag survived chose `forward`, had
an empty facing cell in the snapshot, and no smaller slot shares its
facing tile. -/
theorem singleOccIsMoving_spec {n : ℕ} (cfg : EnvConfig) (s : EnvState n)
    (actions : Fin n → AgentAction) (i : Fin n)
    (h : singleOccIsMoving cfg s actions i = true) :
    actions i = AgentAction.forward ∧ s.mapAgents (facingPosOf cfg s i) = 0 ∧
      ∀ j : Fin n, j < i → facingTileOf cfg s j ≠ facingTileOf cfg s i := by
  unfold singleOccIsMoving at h
  by_cases hprev : sameFacingTileAsPrev cfg s i = true
  · rw [if_pos hprev] at h
    exact absurd h (by simp)
  · rw [if_neg hprev] at h
    simp only [Bool.and_eq_true, decide_eq_true_eq] at h
    refine ⟨h.1, h.2, ?_⟩
    intro j hj htile
    apply hprev
    unfold sameFacingTileAsPrev
    exact decide_eq_true ⟨j, hj, htile⟩

/-- Claim C1: in single-occupancy mode, from a state where existing
agents sit on pairwise distinct cells and the agents occupancy channel
equals the per-cell count of existing agents, the movement phase keeps
existing agents on pairwise distinct cells — whatever the infant move
Bernoulli outcomes `moveDraw` are.  Moreover a slot that actually moved
chose `forward`, had a facing cell that was empty in the pre-tick
occupancy snapshot, and is the lowest-indexed slot (in particular the
lowest-indexed mover) targeting its facing tile. -/
theorem single_occupancy_movement_no_collision {n : ℕ} (cfg : EnvConfig)
    (s : EnvState n) (actions : Fin n → AgentAction) (moveDraw : Fin n → Bool)
    (hdistinct : ∀ i j : Fin n, i ≠ j → s.agents.areExisting i = true →
      s.agents.areExisting j = true → s.agents.positions i ≠ s.agents.positions j)
    (hmap : ∀ c, s.mapAgents c = occupancyCountA s.agents c) :
    (∀ i j : Fin n, i ≠ j → s.agents.areExisting i = true →
        s.agents.areExisting j = true →
        (moveAgentsEnforceSingleOccupancy cfg s actions moveDraw).1 i ≠
          (moveAgentsEnforceSingleOccupancy cfg s actions moveDraw).1 j)
    ∧ (∀ i : Fin n,
        (moveAgentsEnforceSingleOccupancy cfg s actions moveDraw).1 i ≠
          s.agents.positions i →
        actions i = AgentAction.forward
        ∧ s.mapAgents (facingPosOf cfg s i) = 0
        ∧ ∀ j : Fin n, facingTileOf cfg s j = facingTileOf cfg s i → i ≤ j) := by
  have hnew : ∀ i, (moveAgentsEnforceSingleOccupancy cfg s actions moveDraw).1 i =
      if singleOccIsMoving cfg s actions i
          && infantMoveSuccess cfg s.agents.age moveDraw i
      then facingPosOf cfg s i else s.agents.positions i := fun i => rfl
  constructor
  · intro i j hij hei hej heq
    rw [hnew i, hnew j] at heq
    by_cases hi : (singleOccIsMoving cfg s actions i
        && infantMoveSuccess cfg s.agents.age moveDraw i) = true
    · have hmi := singleOccIsMoving_spec cfg s actions i (bool_and_left hi)
      by_cases hj : (singleOccIsMoving cfg s actions j
          && infantMoveSuccess cfg s.agents.age moveDraw j) = true
      · have hmj := singleOccIsMoving_spec cfg s actions j (bool_and_left hj)
        rw [if_pos hi, if_pos hj] at heq
        have htile : facingTileOf cfg s i = facingTileOf cfg s j := by
          unfold facingTileOf
          rw [heq]
        rcases lt_trichotomy i j with hlt | heqij | hgt
        · exact hmj.2.2 i hlt htile
        · exact hij heqij
        · exact hmi.2.2 j hgt htile.symm
      · rw [if_pos hi, if_neg hj] at heq
        have h0 : occupancyCountA s.agents (s.agents.positions j) = 0 := by
          have := hmi.2.1
          rw [hmap, heq] at this
          exact this
        have := occupancyCountA_pos s.agents j hej
        omega
    · by_cases hj : (singleOccIsMoving cfg s actions j
          && infantMoveSuccess cfg s.agents.age moveDraw j) = true
      · have hmj := singleOccIsMoving_spec cfg s actions j (bool_and_left hj)
        rw [if_neg hi, if_pos hj] at heq
        have h0 : occupancyCountA s.agents (s.agents.positions i) = 0 := by
          have := hmj.2.1
          rw [hmap, ← heq] at this
          exact this
        have := occupancyCountA_pos s.agents i hei
        omega
      · rw [if_neg hi, if_neg hj] at heq
        exact hdistinct i j hij hei hej heq
  · intro i hne
    rw [hnew i] at hne
    by_cases hi : (singleOccIsMoving cfg s actions i
        && infantMoveSuccess cfg s.agents.age moveDraw i) = true
    · have hmi := singleOccIsMoving_spec cfg s actions i (bool_and_left hi)
      refine ⟨hmi.1, hmi.2.1, ?_⟩
      intro j htile
      by_contra hlt
      push_neg at hlt
      exact hmi.2.2 j hlt htile
    · rw [if_neg hi] at hne
      exact absurd rfl hne

/-- Witness for C1: slot 0 moves forward into the empty cell `(1,0)`,
slot 1 idles at `(1,1)`; the post-movement positions stay distinct. -/
theorem single_occupancy_movement_no_collision_witness :
    (moveAgentsEnforceSingleOccupancy cfgW stateW1
        ![AgentAction.forward, AgentAction.idle] (fun _ => true)).1 0 ≠
      (moveAgentsEnforceSingleOccupancy cfgW stateW1
        ![AgentAction.forward, AgentAction.idle] (fun _ => true)).1 1 :=
  (single_occupancy_movement_no_collision cfgW stateW1
      ![AgentAction.forward, AgentAction.idle] (fun _ => true)
      (by decide) (fun _ => rfl)).1 0 1 (by decide) (by decide) (by decide)

/-- Unfolding of a successful eat flag: eating is available, the slot
exists and chose `eat`. -/
theorem eatingSuccess_spec {n : ℕ} (cfg : EnvConfig) (s : EnvState n)
    (actions : Fin n → AgentAction) (eatDraw : Fin n → Bool) (i : Fin n)
    (h : eatingSuccess cfg s actions eatDraw i = true) :
    cfg.hasEat = true ∧ s.agents.areExisting i = true ∧ actions i = AgentAction.eat := by
  unfold eatingSuccess at h
  simp only [Bool.and_eq_true, decide_eq_true_eq] at h
  exact ⟨h.1.1.1, h.1.1.2, h.1.2⟩

/-- The scatter-add eater count at a cell equals the cardinality of the
set of eating agents whose new position is that cell. -/
theorem numTryEatingAt_eq_card {n : ℕ} (cfg : EnvConfig) (s : EnvState n)
    (actions : Fin n → AgentAction) (moveDraw eatDraw : Fin n → Bool) (c : ℕ × ℕ) :
    numTryEatingAt cfg s actions moveDraw eatDraw c
      = (Finset.univ.filter (fun j : Fin n =>
          newPositionsOf cfg s actions moveDraw j = c ∧
          eatingSuccess cfg s actions eatDraw j = true)).card := by
  unfold numTryEatingAt
  rw [Finset.card_filter]

/-- Claim C4: after the action phase a slot is existing iff it was
existing at tick start, its post-cost energy (clipped to
`[0, energy_max]`, which is exactly the output energy) strictly exceeds
`energy_thr_death`, and its tick-start age is strictly below `age_max`.
Consequently, with transfers disabled and a nonnegative death
threshold, an existing agent holding exactly `energy_thr_death + ε`
with `ε ≤ energy_loss_idle` that idles is absent from the existence
mask afterwards. -/
theorem death_test_iff_and_idle_starvation {n : ℕ} (cfg : EnvConfig)
    (s : EnvState n) (actions : Fin n → AgentAction)
    (moveDraw eatDraw : Fin n → Bool) (growthDraw : ℕ × ℕ → Bool) :
    (∀ i : Fin n,
      (stepActionAgents cfg s actions moveDraw eatDraw growthDraw).agents.areExisting i
          = true
        ↔ (s.agents.areExisting i = true
           ∧ cfg.energyThrDeath <
               (stepActionAgents cfg s actions moveDraw eatDraw growthDraw).agents.energy i
           ∧ s.agents.age i < cfg.ageMax))
    ∧ (∀ i : Fin n, ∀ ε : ℚ, cfg.hasTransfer = false →
        actions i = AgentAction.idle →
        s.agents.areExisting i = true →
        s.agents.energy i = cfg.energyThrDeath + ε →
        ε ≤ cfg.energyLossIdle →
        0 ≤ cfg.energyThrDeath →
        (stepActionAgents cfg s actions moveDraw eatDraw growthDraw).agents.areExisting i
          = false) := by
  constructor
  · intro i
    simp only [stepActionAgents, areExistingAfterActions, Bool.and_eq_true,
      decide_eq_true_eq]
    tauto
  · intro i ε htr hidle hex he hle hthr
    have hbonus : foodEnergyBonus cfg s actions moveDraw eatDraw i = 0 := by
      unfold foodEnergyBonus eatingSuccess
      simp [hidle]
    have hpre : energyAfterActionsPreClip cfg s actions moveDraw eatDraw i
        = s.agents.energy i - cfg.energyLossIdle := by
      unfold energyAfterActionsPreClip areTransferring
      simp [htr, hidle, hex, hbonus]
    have hE : energyAfterActions cfg s actions moveDraw eatDraw i
        ≤ cfg.energyThrDeath := by
      unfold energyAfterActions clipQ
      rw [hpre, he]
      have h1 : cfg.energyThrDeath + ε - cfg.energyLossIdle ≤ cfg.energyThrDeath := by
        linarith
      exact le_trans (min_le_right _ _) (max_le hthr h1)
    have hdec : decide (cfg.energyThrDeath
        < energyAfterActions cfg s actions moveDraw eatDraw i) = false :=
      decide_eq_false (not_lt.mpr hE)
    simp only [stepActionAgents, areExistingAfterActions, hdec, Bool.false_and]

/-- Witness for C4: in `stateW2`, slot 0 holds `1/2 = 0 + 1/2` energy,
idles, and is dead after the action phase. -/
theorem death_test_iff_and_idle_starvation_witness :
    (stepActionAgents cfgW stateW2 ![AgentAction.idle, AgentAction.idle]
        (fun _ => true) (fun _ => true) (fun _ => false)).agents.areExisting 0 = false :=
  (death_test_iff_and_idle_starvation cfgW stateW2 ![AgentAction.idle, AgentAction.idle]
      (fun _ => true) (fun _ => true) (fun _ => false)).2 0 (1/2)
    rfl rfl (by decide) (by norm_num [stateW2, agentsW2, cfgW]) (by norm_num [cfgW])
    (by norm_num [cfgW])

/-- Claim C5: a slot whose eat action succeeds at its new position `c`
receives the bonus `energy_food * plant_mass(c) / max(1, k(c))` scaled
by the infant multiplier, where `k(c)` counts the eating agents whose
new position is `c`; its output energy is its tick-start energy plus
the bonus minus the action cost, clipped; and the post-eating plant
mass at `c` is `plant_mass(c) - k(c) * plant_mass(c)` clipped to
`[0, 1]`. -/
theorem eating_bonus_and_plant_depletion {n : ℕ} (cfg : EnvConfig)
    (s : EnvState n) (actions : Fin n → AgentAction)
    (moveDraw eatDraw : Fin n → Bool) (growthDraw : ℕ × ℕ → Bool)
    (htr : cfg.hasTransfer = false) (i : Fin n)
    (heat : eatingSuccess cfg s actions eatDraw i = true) :
    foodEnergyBonus cfg s actions moveDraw eatDraw i
      = cfg.energyFood * s.mapPlants (newPositionsOf cfg s actions moveDraw i)
          / ((max 1 ((Finset.univ.filter (fun j : Fin n =>
                newPositionsOf cfg s actions moveDraw j
                  = newPositionsOf cfg s actions moveDraw i ∧
                eatingSuccess cfg s actions eatDraw j = true)).card) : ℕ) : ℚ)
          * (if s.agents.age i < cfg.infancyDuration
             then cfg.infantFoodEnergyMult else 1)
    ∧ (stepActionAgents cfg s actions moveDraw eatDraw growthDraw).agents.energy i
      = clipQ (s.agents.energy i + foodEnergyBonus cfg s actions moveDraw eatDraw i
          - cfg.energyLossAction) 0 cfg.energyMax
    ∧ mapPlantsAfterEating cfg s actions moveDraw eatDraw
        (newPositionsOf cfg s actions moveDraw i)
      = clipQ (s.mapPlants (newPositionsOf cfg s actions moveDraw i)
          - (((Finset.univ.filter (fun j : Fin n =>
                newPositionsOf cfg s actions moveDraw j
                  = newPositionsOf cfg s actions moveDraw i ∧
                eatingSuccess cfg s actions eatDraw j = true)).card : ℕ) : ℚ)
            * s.mapPlants (newPositionsOf cfg s actions moveDraw i)) 0 1 := by
  obtain ⟨hE, hex, hact⟩ := eatingSuccess_spec cfg s actions eatDraw i heat
  refine ⟨?_, ?_, ?_⟩
  · unfold foodEnergyBonus
    rw [if_pos heat, numTryEatingAt_eq_card]
  · simp only [stepActionAgents]
    unfold energyAfterActions energyAfterActionsPreClip areTransferring
    simp [htr, hE, hex, hact]
  · unfold mapPlantsAfterEating
    rw [if_pos hE, numTryEatingAt_eq_card]

/-- Witness for C5: the lone adult of `stateW3` eating its own cell of
plant mass 1 gains exactly `energy_food`, and the plant mass there
drops to 0. -/
theorem eating_bonus_and_plant_depletion_witness :
    foodEnergyBonus cfgW stateW3 ![AgentAction.eat] (fun _ => true) (fun _ => true) 0
        = cfgW.energyFood
    ∧ mapPlantsAfterEating cfgW stateW3 ![AgentAction.eat] (fun _ => true)
        (fun _ => true) (0, 0) = 0 := by
  have h := eating_bonus_and_plant_depletion cfgW stateW3 ![AgentAction.eat]
    (fun _ => true) (fun _ => true) (fun _ => false) rfl 0 (by decide)
  have hc : newPositionsOf cfgW stateW3 ![AgentAction.eat] (fun _ => true) 0
      = (0, 0) := by decide
  have hcard : (Finset.univ.filter (fun j : Fin 1 =>
      newPositionsOf cfgW stateW3 ![AgentAction.eat] (fun _ => true) j
        = newPositionsOf cfgW stateW3 ![AgentAction.eat] (fun _ => true) 0 ∧
      eatingSuccess cfgW stateW3 ![AgentAction.eat] (fun _ => true) j = true)).card
      = 1 := by decide
  refine ⟨?_, ?_⟩
  · rw [h.1, hcard, hc]
    norm_num [cfgW, stateW3, agentsW3]
  · rw [← hc, h.2.2, hcard, hc]
    norm_num [stateW3, clipQ]

/-- Right projection of a true Bool conjunction. -/
theorem bool_and_right {a b : Bool} (h : (a && b) = true) : b = true := by
  cases b
  · simp at h
  · rfl

/-- Projection shape of `stepEnv`: the reproduction mask of the tick is
the final reproducing mask computed on the occupancy-refreshed
post-action state. -/
theorem stepEnv_agentsReprod {n : ℕ} (cfg : EnvConfig) (s : EnvState n)
    (actions : Fin n → AgentAction) (moveDraw eatDraw : Fin n → Bool)
    (growthDraw : ℕ × ℕ → Bool) (noise : ℕ → ℚ) :
    (stepEnv cfg s actions moveDraw eatDraw growthDraw noise).agentsReprod
      = agentsReprodFinal cfg
          (updateAgentMap (stepActionAgents cfg s actions moveDraw eatDraw growthDraw))
          actions := rfl

/-- Projection shape of `stepEnv`: the newborn mask of the tick. -/
theorem stepEnv_areNewborns {n : ℕ} (cfg : EnvConfig) (s : EnvState n)
    (actions : Fin n → AgentAction) (moveDraw eatDraw : Fin n → Bool)
    (growthDraw : ℕ × ℕ → Bool) (noise : ℕ → ℚ) :
    (stepEnv cfg s actions moveDraw eatDraw growthDraw noise).areNewborns
      = fun i => (newbornSlotOf cfg
          (updateAgentMap (stepActionAgents cfg s actions moveDraw eatDraw growthDraw))
          actions i).isSome := rfl

/-- A slot of the final reproducing set passed every filter: it exists,
has energy above the reproduction threshold, is no infant, and its
facing cell is empty in the occupancy channel of the state handed to
the reproduction phase. -/
theorem reprodFinal_spec {n : ℕ} (cfg : EnvConfig) (s : EnvState n)
    (actions : Fin n → AgentAction) (i : Fin n)
    (h : agentsReprodFinal cfg s actions i = true) :
    s.agents.areExisting i = true
    ∧ cfg.energyReqReprod < s.agents.energy i
    ∧ cfg.infancyDuration ≤ s.agents.age i
    ∧ s.mapAgents (facingPosOf cfg s i) = 0 := by
  have hpre : agentsReprodPreCap cfg s actions i = true := bool_and_right h
  unfold agentsReprodPreCap at hpre
  have hded : reprodAfterDedup cfg s i = true := by
    by_cases hR : cfg.hasReproduce = true
    · rw [if_pos hR] at hpre
      exact bool_and_left hpre
    · rwa [if_neg hR] at hpre
  unfold reprodAfterDedup at hded
  by_cases hsp : sameFacingTileAsPrev cfg s i = true
  · rw [if_pos hsp] at hded
    exact absurd hded (by simp)
  · rw [if_neg hsp] at hded
    unfold reprodAfterMap reprodStage0 at hded
    simp only [Bool.and_eq_true, decide_eq_true_eq] at hded
    exact ⟨hded.1.2, hded.1.1.1, hded.1.1.2, hded.2⟩

/-- Claim C2 (amended): inside `step`, a slot that is allowed to
reproduce is existing, has energy above `energy_req_reprod`, has age at
least `infancy_duration`, and its facing cell is empty in the occupancy
map REBUILT after the movement/action phase (post-movement positions
and deaths) — not in the pre-tick snapshot used by the movement
phase. -/
theorem reproduction_uses_refreshed_occupancy {n : ℕ} (cfg : EnvConfig)
    (s : EnvState n) (actions : Fin n → AgentAction)
    (moveDraw eatDraw : Fin n → Bool) (growthDraw : ℕ × ℕ → Bool) (noise : ℕ → ℚ)
    (i : Fin n)
    (h : (stepEnv cfg s actions moveDraw eatDraw growthDraw noise).agentsReprod i
          = true) :
    (updateAgentMap (stepActionAgents cfg s actions moveDraw eatDraw
        growthDraw)).agents.areExisting i = true
    ∧ cfg.energyReqReprod <
        (updateAgentMap (stepActionAgents cfg s actions moveDraw eatDraw
          growthDraw)).agents.energy i
    ∧ cfg.infancyDuration ≤
        (updateAgentMap (stepActionAgents cfg s actions moveDraw eatDraw
          growthDraw)).agents.age i
    ∧ occupancyCountA
        (updateAgentMap (stepActionAgents cfg s actions moveDraw eatDraw
          growthDraw)).agents
        (facingPosOf cfg
          (updateAgentMap (stepActionAgents cfg s actions moveDraw eatDraw growthDraw))
          i) = 0 := by
  rw [stepEnv_agentsReprod] at h
  exact reprodFinal_spec cfg _ actions i h

/-- Evaluation lemma: the action phase maps the counterexample state
`stateC2` to the concrete state `stateC2a`. -/
theorem stepActionAgents_stateC2_eval :
    stepActionAgents cfgW stateC2 actionsC2 (fun _ => true) (fun _ => true)
      (fun _ => false) = stateC2a := by
  unfold stepActionAgents stateC2a agentsC2a
  rw [EnvState.mk.injEq, Agents.mk.injEq]
  refine ⟨rfl, ?_, rfl, ?_, ?_, ?_, ?_, rfl, ?_, rfl⟩
  · funext c
    simp
  · funext i
    fin_cases i <;>
      simp [newPositionsOf, moveResultOf, cfgW,
        moveAgentsEnforceSingleOccupancy, computeNewPositions, singleOccIsMoving,
        sameFacingTileAsPrev, infantMoveSuccess, facingPosOf, facingTileOf,
        tileIndex, getFacingPos, stateC2, agentsC2, actionsC2, occupancyCountA,
        Fin.sum_univ_three] <;> decide
  · funext i
    fin_cases i <;>
      simp [newOrientationsOf, computeNewOrientations, stateC2, agentsC2, actionsC2]
  · funext i
    fin_cases i <;>
      simp [areExistingAfterActions, energyAfterActions,
        energyAfterActionsPreClip, clipQ, foodEnergyBonus, eatingSuccess,
        areTransferring, transferDelta, cfgW, stateC2, agentsC2, actionsC2] <;>
      norm_num
  · funext i
    fin_cases i <;>
      simp [energyAfterActions,
        energyAfterActionsPreClip, clipQ, foodEnergyBonus, eatingSuccess,
        areTransferring, transferDelta, cfgW, stateC2, agentsC2, actionsC2] <;>
      norm_num
  · funext i
    fin_cases i <;>
      simp [areExistingAfterActions, energyAfterActions,
        energyAfterActionsPreClip, clipQ, foodEnergyBonus, eatingSuccess,
        areTransferring, transferDelta, cfgW, stateC2, agentsC2, actionsC2] <;>
      norm_num

/-- Evaluation lemma: in the counterexample tick, slot 0 is allowed to
reproduce. -/
theorem stateC2_slot0_reproduces :
    (stepEnv cfgW stateC2 actionsC2 (fun _ => true) (fun _ => true) (fun _ => false)
        (fun _ => 0)).agentsReprod 0 = true := by
  rw [stepEnv_agentsReprod, stepActionAgents_stateC2_eval]
  have hp0 : agentsReprodPreCap cfgW (updateAgentMap stateC2a) actionsC2 0 = true := by
    simp [agentsReprodPreCap, reprodAfterDedup, reprodAfterMap, reprodStage0,
      sameFacingTileAsPrev, facingPosOf, facingTileOf, tileIndex, getFacingPos,
      updateAgentMap, occupancyCountA, cfgW, stateC2a, agentsC2a, actionsC2,
      Fin.sum_univ_three] <;> first | decide | norm_num
  have hp1 : agentsReprodPreCap cfgW (updateAgentMap stateC2a) actionsC2 1 = false := by
    simp [agentsReprodPreCap, reprodAfterDedup, reprodAfterMap, reprodStage0,
      sameFacingTileAsPrev, facingPosOf, facingTileOf, tileIndex, getFacingPos,
      updateAgentMap, occupancyCountA, cfgW, stateC2a, agentsC2a, actionsC2,
      Fin.sum_univ_three] <;> first | decide | norm_num
  have hp2 : agentsReprodPreCap cfgW (updateAgentMap stateC2a) actionsC2 2 = false := by
    simp [agentsReprodPreCap, reprodAfterDedup, reprodAfterMap, reprodStage0,
      sameFacingTileAsPrev, facingPosOf, facingTileOf, tileIndex, getFacingPos,
      updateAgentMap, occupancyCountA, cfgW, stateC2a, agentsC2a, actionsC2,
      Fin.sum_univ_three] <;> first | decide | norm_num
  have hghost : nGhostOf (updateAgentMap stateC2a) = 1 := by
    simp [nGhostOf, updateAgentMap, stateC2a, agentsC2a, Fin.sum_univ_three]
  unfold agentsReprodFinal nNewbornsOf nTryingReprod cumsumReprod
  rw [Fin.sum_univ_three, Fin.sum_univ_three, hghost, hp0, hp1, hp2]
  simp

/-- Claim C2, counterexample: in `stateC2` the facing cell of slot 0 is
occupied in the pre-tick occupancy map (slot 1 stands there), yet slot
0 is allowed to reproduce in that tick, because its occupant moved away
during the movement phase and the reproduction phase consults the
refreshed map. -/
theorem reproduction_pretick_occupancy_counterexample :
    (stepEnv cfgW stateC2 actionsC2 (fun _ => true) (fun _ => true) (fun _ => false)
        (fun _ => 0)).agentsReprod 0 = true
    ∧ stateC2.mapAgents (facingPosOf cfgW stateC2 0) ≠ 0 := by
  refine ⟨stateC2_slot0_reproduces, ?_⟩
  decide

/-- Witness for the amended C2, instantiated at the counterexample
tick. -/
theorem reproduction_uses_refreshed_occupancy_witness :
    occupancyCountA
      (updateAgentMap (stepActionAgents cfgW stateC2 actionsC2 (fun _ => true)
        (fun _ => true) (fun _ => false))).agents
      (facingPosOf cfgW
        (updateAgentMap (stepActionAgents cfgW stateC2 actionsC2 (fun _ => true)
          (fun _ => true) (fun _ => false))) 0) = 0 :=
  (reproduction_uses_refreshed_occupancy cfgW stateC2 actionsC2 (fun _ => true)
    (fun _ => true) (fun _ => false) (fun _ => 0) 0 stateC2_slot0_reproduces).2.2.2

/-- Summing a Boolean indicator over a list counts the satisfying
elements. -/
theorem list_map_boole_sum_eq_countP {α : Type} (p : α → Bool) (l : List α) :
    (l.map (fun i => if p i then (1 : ℕ) else 0)).sum = l.countP p := by
  induction l with
  | nil => rfl
  | cons a t ih =>
    rw [List.map_cons, List.sum_cons, List.countP_cons, ih]
    cases h : p a <;> simp [h, Nat.add_comm]

/-- The ghost list has exactly `n_ghost_agents` entries. -/
theorem ghostListOf_length {n : ℕ} (s : EnvState n) :
    (ghostListOf s).length = nGhostOf s := by
  unfold ghostListOf nGhostOf
  rw [← List.countP_eq_length_filter, ← list_map_boole_sum_eq_countP]
  have h : (∑ i : Fin n, if s.agents.areExisting i then 0 else 1)
      = ∑ i : Fin n, if !s.agents.areExisting i then (1 : ℕ) else 0 :=
    Finset.sum_congr rfl (fun i _ => by cases h : s.agents.areExisting i <;> simp [h])
  rw [h]
  rfl

/-- The ghost list is duplicate-free. -/
theorem ghostListOf_nodup {n : ℕ} (s : EnvState n) : (ghostListOf s).Nodup :=
  (List.nodup_finRange n).filter _

/-- `n_agents_trying_reprod` counts the eligible-after-collision set. -/
theorem nTryingReprod_eq_card {n : ℕ} (cfg : EnvConfig) (s : EnvState n)
    (actions : Fin n → AgentAction) :
    nTryingReprod cfg s actions
      = (Finset.univ.filter
          (fun i : Fin n => agentsReprodPreCap cfg s actions i = true)).card := by
  unfold nTryingReprod
  rw [Finset.card_filter]

/-- `n_ghost_agents` counts the non-existing slots. -/
theorem nGhostOf_eq_card {n : ℕ} (s : EnvState n) :
    nGhostOf s
      = (Finset.univ.filter (fun i : Fin n => s.agents.areExisting i = false)).card := by
  unfold nGhostOf
  rw [Finset.card_filter]
  exact Finset.sum_congr rfl
    (fun i _ => by cases h : s.agents.areExisting i <;> simp [h])

/-- A slot is a newborn exactly when it is among the first `n_newborns`
ghost indices. -/
theorem newbornSlot_isSome_iff_mem_take {n : ℕ} (cfg : EnvConfig) (s : EnvState n)
    (actions : Fin n → AgentAction) (i : Fin n) :
    (newbornSlotOf cfg s actions i).isSome = true
      ↔ i ∈ (ghostListOf s).take (nNewbornsOf cfg s actions) := by
  unfold newbornSlotOf
  rw [List.find?_isSome]
  constructor
  · rintro ⟨k, hk, hget⟩
    simp only [decide_eq_true_eq] at hget
    rw [List.mem_range] at hk
    have hmem : ((ghostListOf s).take (nNewbornsOf cfg s actions))[k]? = some i := by
      rw [List.getElem?_take_of_lt hk]
      exact hget
    exact List.getElem?_mem hmem
  · intro hmem
    obtain ⟨k, hk, hget⟩ := List.getElem_of_mem hmem
    have hkm : k < nNewbornsOf cfg s actions :=
      lt_of_lt_of_le hk (by rw [List.length_take]; exact min_le_left _ _)
    refine ⟨k, List.mem_range.mpr hkm, ?_⟩
    simp only [decide_eq_true_eq]
    have h2 : ((ghostListOf s).take (nNewbornsOf cfg s actions))[k]? = some i := by
      rw [List.getElem?_eq_getElem hk, hget]
    rwa [List.getElem?_take_of_lt hkm] at h2

/-- Claim C3 (amended): with `E` the eligible-after-collision count and
`G` the number of ghost slots at the start of the REPRODUCTION phase
(after the action-phase deaths of the same tick, not at tick start),
the number of newborns is `min(E, G)`; a slot reproduces iff it is
eligible and its inclusive cumulative eligibility count is at most
`n_newborns = min(E, G)` (the lowest-index initial segment of the
eligible set); the reproduction cost is charged exactly to that final
set, newborn slots being re-initialised to `energy_initial`; and births
never exceed `G`. -/
theorem reproduction_capacity_initial_segment_cost {n : ℕ} (cfg : EnvConfig) (s : EnvState n)
    (actions : Fin n → AgentAction) (noise : ℕ → ℚ) :
    (Finset.univ.filter (fun i : Fin n =>
        (stepReproduceAgents cfg s actions noise).areNewborns i = true)).card
      = min (Finset.univ.filter (fun i : Fin n =>
              agentsReprodPreCap cfg s actions i = true)).card
            (Finset.univ.filter (fun i : Fin n =>
              s.agents.areExisting i = false)).card
    ∧ (∀ i : Fin n,
        (stepReproduceAgents cfg s actions noise).agentsReprod i = true
          ↔ (agentsReprodPreCap cfg s actions i = true
             ∧ cumsumReprod cfg s actions i ≤ nNewbornsOf cfg s actions))
    ∧ (∀ i : Fin n,
        (stepReproduceAgents cfg s actions noise).state.agents.energy i
          = if (stepReproduceAgents cfg s actions noise).areNewborns i = true
            then cfg.energyInitial
            else s.agents.energy i
              - (if (stepReproduceAgents cfg s actions noise).agentsReprod i = true
                 then cfg.energyCostReprod else 0))
    ∧ (Finset.univ.filter (fun i : Fin n =>
        (stepReproduceAgents cfg s actions noise).areNewborns i = true)).card
      ≤ (Finset.univ.filter (fun i : Fin n =>
          s.agents.areExisting i = false)).card := by
  have hcard : (Finset.univ.filter (fun i : Fin n =>
      (stepReproduceAgents cfg s actions noise).areNewborns i = true)).card
      = nNewbornsOf cfg s actions := by
    have hset : Finset.univ.filter (fun i : Fin n =>
        (stepReproduceAgents cfg s actions noise).areNewborns i = true)
        = ((ghostListOf s).take (nNewbornsOf cfg s actions)).toFinset := by
      ext x
      simp only [Finset.mem_filter, Finset.mem_univ, true_and, List.mem_toFinset]
      exact newbornSlot_isSome_iff_mem_take cfg s actions x
    have hnodup : ((ghostListOf s).take (nNewbornsOf cfg s actions)).Nodup :=
      (ghostListOf_nodup s).sublist (List.take_sublist _ _)
    rw [hset, List.toFinset_card_of_nodup hnodup, List.length_take,
      ghostListOf_length]
    exact Nat.min_eq_left (min_le_right _ _)
  have hmin : nNewbornsOf cfg s actions
      = min (Finset.univ.filter (fun i : Fin n =>
              agentsReprodPreCap cfg s actions i = true)).card
            (Finset.univ.filter (fun i : Fin n =>
              s.agents.areExisting i = false)).card := by
    unfold nNewbornsOf
    rw [nTryingReprod_eq_card, nGhostOf_eq_card]
  refine ⟨hcard.trans hmin, ?_, ?_, ?_⟩
  · intro i
    show agentsReprodFinal cfg s actions i = true ↔ _
    unfold agentsReprodFinal
    simp only [Bool.and_eq_true, decide_eq_true_eq]
    exact and_comm
  · intro i
    show (match newbornSlotOf cfg s actions i with
          | some _ => cfg.energyInitial
          | none => s.agents.energy i
              - (if agentsReprodFinal cfg s actions i then cfg.energyCostReprod else 0))
        = _
    cases hslot : newbornSlotOf cfg s actions i with
    | some k =>
        have hb : (stepReproduceAgents cfg s actions noise).areNewborns i = true := by
          show (newbornSlotOf cfg s actions i).isSome = true
          rw [hslot]
          rfl
        rw [if_pos hb]
    | none =>
        have hb : (stepReproduceAgents cfg s actions noise).areNewborns i = false := by
          show (newbornSlotOf cfg s actions i).isSome = false
          rw [hslot]
          rfl
        rw [hb]
        simp only [Bool.false_eq_true, if_false]
        rfl
  · rw [hcard]
    rw [← nGhostOf_eq_card]
    exact min_le_right _ _

/-- Evaluation lemma: the action phase maps `stateC3` to `stateC3a`
(slot 1 dies of old age). -/
theorem stepActionAgents_stateC3_eval :
    stepActionAgents cfgW stateC3 actionsC3 (fun _ => true) (fun _ => true)
      (fun _ => false) = stateC3a := by
  unfold stepActionAgents stateC3a agentsC3a
  rw [EnvState.mk.injEq, Agents.mk.injEq]
  refine ⟨rfl, ?_, rfl, ?_, ?_, ?_, ?_, rfl, ?_, rfl⟩
  · funext c
    simp
  · funext i
    fin_cases i <;>
      simp [newPositionsOf, moveResultOf, cfgW,
        moveAgentsEnforceSingleOccupancy, computeNewPositions, singleOccIsMoving,
        sameFacingTileAsPrev, infantMoveSuccess, facingPosOf, facingTileOf,
        tileIndex, getFacingPos, stateC3, agentsC3, actionsC3, occupancyCountA,
        Fin.sum_univ_two] <;> decide
  · funext i
    fin_cases i <;>
      simp [newOrientationsOf, computeNewOrientations, stateC3, agentsC3, actionsC3]
  · funext i
    fin_cases i <;>
      simp [areExistingAfterActions, energyAfterActions,
        energyAfterActionsPreClip, clipQ, foodEnergyBonus, eatingSuccess,
        areTransferring, transferDelta, cfgW, stateC3, agentsC3, actionsC3] <;>
      norm_num
  · funext i
    fin_cases i <;>
      simp [energyAfterActions,
        energyAfterActionsPreClip, clipQ, foodEnergyBonus, eatingSuccess,
        areTransferring, transferDelta, cfgW, stateC3, agentsC3, actionsC3] <;>
      norm_num
  · funext i
    fin_cases i <;>
      simp [areExistingAfterActions, energyAfterActions,
        energyAfterActionsPreClip, clipQ, foodEnergyBonus, eatingSuccess,
        areTransferring, transferDelta, cfgW, stateC3, agentsC3, actionsC3] <;>
      norm_num

/-- Claim C3, counterexample: in the `stateC3` tick there are zero
ghost slots at tick start, yet one birth happens — slot 1 dies of old
age during the action phase and its slot is recycled by slot 0 within
the same tick, so the capacity bound counts the ghosts of the
post-action state, not of the tick start. -/
theorem births_exceed_tickstart_ghosts_counterexample :
    (∑ i : Fin 2, if (stepEnv cfgW stateC3 actionsC3 (fun _ => true) (fun _ => true)
        (fun _ => false) (fun _ => 0)).areNewborns i then 1 else 0) = 1
    ∧ nGhostOf stateC3 = 0 := by
  constructor
  · rw [stepEnv_areNewborns, stepActionAgents_stateC3_eval]
    have hp0 : agentsReprodPreCap cfgW (updateAgentMap stateC3a) actionsC3 0 = true := by
      simp [agentsReprodPreCap, reprodAfterDedup, reprodAfterMap, reprodStage0,
        sameFacingTileAsPrev, facingPosOf, facingTileOf, tileIndex, getFacingPos,
        updateAgentMap, occupancyCountA, cfgW, stateC3a, agentsC3a, actionsC3,
        Fin.sum_univ_two] <;> first | decide | norm_num
    have hp1 : agentsReprodPreCap cfgW (updateAgentMap stateC3a) actionsC3 1 = false := by
      simp [agentsReprodPreCap, reprodAfterDedup, reprodAfterMap, reprodStage0,
        sameFacingTileAsPrev, facingPosOf, facingTileOf, tileIndex, getFacingPos,
        updateAgentMap, occupancyCountA, cfgW, stateC3a, agentsC3a, actionsC3,
        Fin.sum_univ_two] <;> first | decide | norm_num
    have hg : nGhostOf (updateAgentMap stateC3a) = 1 := by
      simp [nGhostOf, updateAgentMap, stateC3a, agentsC3a, Fin.sum_univ_two]
    have hnb : nNewbornsOf cfgW (updateAgentMap stateC3a) actionsC3 = 1 := by
      unfold nNewbornsOf nTryingReprod
      rw [Fin.sum_univ_two, hp0, hp1, hg]
      rfl
    have hgl : ghostListOf (updateAgentMap stateC3a) = [1] := by decide
    simp only [newbornSlotOf, hnb, hgl, Fin.sum_univ_two]
    decide
  · decide

/-- `jnp.clip` keeps its value inside the bounds whenever they are
ordered. -/
theorem clipQ_mem (x lo hi : ℚ) (h : lo ≤ hi) :
    lo ≤ clipQ x lo hi ∧ clipQ x lo hi ≤ hi :=
  ⟨le_min h (le_max_left _ _), min_le_left _ _⟩

/-- Shape of the end-of-tick energy of a slot: `energy_initial` for
newborn slots, otherwise the clipped post-action energy minus the
reproduction charge. -/
theorem stepEnv_energy_shape {n : ℕ} (cfg : EnvConfig) (s : EnvState n)
    (actions : Fin n → AgentAction) (moveDraw eatDraw : Fin n → Bool)
    (growthDraw : ℕ × ℕ → Bool) (noise : ℕ → ℚ) (i : Fin n) :
    (stepEnv cfg s actions moveDraw eatDraw growthDraw noise).state.agents.energy i
      = match newbornSlotOf cfg
          (updateAgentMap (stepActionAgents cfg s actions moveDraw eatDraw growthDraw))
          actions i with
        | some _ => cfg.energyInitial
        | none => energyAfterActions cfg s actions moveDraw eatDraw i
            - (if agentsReprodFinal cfg
                  (updateAgentMap
                    (stepActionAgents cfg s actions moveDraw eatDraw growthDraw))
                  actions i
               then cfg.energyCostReprod else 0) := rfl

/-- Shape of the end-of-tick existence mask: post-action survivors plus
the newborn slots. -/
theorem stepEnv_areExisting_shape {n : ℕ} (cfg : EnvConfig) (s : EnvState n)
    (actions : Fin n → AgentAction) (moveDraw eatDraw : Fin n → Bool)
    (growthDraw : ℕ × ℕ → Bool) (noise : ℕ → ℚ) (i : Fin n) :
    (stepEnv cfg s actions moveDraw eatDraw growthDraw noise).state.agents.areExisting i
      = (areExistingAfterActions cfg s actions moveDraw eatDraw i
         || (newbornSlotOf cfg
              (updateAgentMap (stepActionAgents cfg s actions moveDraw eatDraw growthDraw))
              actions i).isSome) := rfl

/-- Claim C6: under the configuration constraints
`0 ≤ energy_cost_reprod ≤ energy_req_reprod` and
`0 ≤ energy_initial ≤ energy_max`, every existing slot ends every step
with energy inside `[0, energy_max]`, for every input state and action
vector (the action phase clips all energies, the reproduction charge is
covered by the reproduction threshold, and newborns start at
`energy_initial`). -/
theorem step_preserves_energy_bounds {n : ℕ} (cfg : EnvConfig) (s : EnvState n)
    (actions : Fin n → AgentAction) (moveDraw eatDraw : Fin n → Bool)
    (growthDraw : ℕ × ℕ → Bool) (noise : ℕ → ℚ)
    (h1 : 0 ≤ cfg.energyCostReprod) (h2 : cfg.energyCostReprod ≤ cfg.energyReqReprod)
    (h3 : 0 ≤ cfg.energyInitial) (h4 : cfg.energyInitial ≤ cfg.energyMax) :
    ∀ i : Fin n,
      (stepEnv cfg s actions moveDraw eatDraw growthDraw noise).state.agents.areExisting i
          = true →
      0 ≤ (stepEnv cfg s actions moveDraw eatDraw growthDraw noise).state.agents.energy i
      ∧ (stepEnv cfg s actions moveDraw eatDraw growthDraw noise).state.agents.energy i
          ≤ cfg.energyMax := by
  intro i _hex
  have hemax : (0 : ℚ) ≤ cfg.energyMax := le_trans h3 h4
  rw [stepEnv_energy_shape]
  cases hslot : newbornSlotOf cfg
      (updateAgentMap (stepActionAgents cfg s actions moveDraw eatDraw growthDraw))
      actions i with
  | some k =>
    simp only [hslot]
    exact ⟨h3, h4⟩
  | none =>
    simp only [hslot]
    have hclip : 0 ≤ energyAfterActions cfg s actions moveDraw eatDraw i
        ∧ energyAfterActions cfg s actions moveDraw eatDraw i ≤ cfg.energyMax := by
      unfold energyAfterActions
      exact clipQ_mem _ _ _ hemax
    by_cases hfin : agentsReprodFinal cfg
        (updateAgentMap (stepActionAgents cfg s actions moveDraw eatDraw growthDraw))
        actions i = true
    · rw [if_pos hfin]
      have hreq : cfg.energyReqReprod
          < energyAfterActions cfg s actions moveDraw eatDraw i :=
        (reprodFinal_spec cfg _ actions i hfin).2.1
      exact ⟨sub_nonneg.mpr (lt_of_le_of_lt h2 hreq).le,
        le_trans (sub_le_self _ h1) hclip.2⟩
    · rw [if_neg hfin]
      simpa using hclip

/-- Witness for C6: slot 0 of the occupancy-counterexample tick exists
at the end of the step and its energy is within `[0, 10]`. -/
theorem step_preserves_energy_bounds_witness :
    0 ≤ (stepEnv cfgW stateC2 actionsC2 (fun _ => true) (fun _ => true)
        (fun _ => false) (fun _ => 0)).state.agents.energy 0
    ∧ (stepEnv cfgW stateC2 actionsC2 (fun _ => true) (fun _ => true)
        (fun _ => false) (fun _ => 0)).state.agents.energy 0 ≤ cfgW.energyMax := by
  apply step_preserves_energy_bounds cfgW stateC2 actionsC2 (fun _ => true)
    (fun _ => true) (fun _ => false) (fun _ => 0) (by norm_num [cfgW])
    (by norm_num [cfgW]) (by norm_num [cfgW]) (by norm_num [cfgW]) 0
  rw [stepEnv_areExisting_shape]
  have hex : areExistingAfterActions cfgW stateC2 actionsC2 (fun _ => true)
      (fun _ => true) 0 = true := by
    have h := congrArg (fun st : EnvState 3 => st.agents.areExisting 0)
      stepActionAgents_stateC2_eval
    simpa using h
  rw [hex]
  rfl

/-- A right fold of pointwise updates reads back as the first list
entry positioned on the queried cell (the head update is applied last,
so it wins). -/
theorem foldr_update_eq_find {n : ℕ} (pos : Fin n → ℕ × ℕ) (m0 : ℕ × ℕ → ℕ) :
    ∀ (l : List (Fin n)) (c : ℕ × ℕ),
      (l.foldr (fun i m => Function.update m (pos i) i.val) m0) c
        = match l.find? (fun i => decide (pos i = c)) with
          | some i => i.val
          | none => m0 c := by
  intro l
  induction l with
  | nil => intro c; rfl
  | cons a t ih =>
    intro c
    rw [List.foldr_cons]
    by_cases hc : pos a = c
    · rw [@List.find?_cons_of_pos (Fin n) (fun i => decide (pos i = c)) a t
        (decide_eq_true hc)]
      rw [Function.update_apply, if_pos hc.symm]
    · rw [@List.find?_cons_of_neg (Fin n) (fun i => decide (pos i = c)) a t
        (by simpa using hc)]
      rw [Function.update_apply, if_neg (fun h => hc h.symm)]
      exact ih c

/-- The reverse-order scatter of `get_observations_agents` reads back
as the FIRST slot (lowest index) whose position is the queried cell,
with fill value `n` on cells no slot occupies. -/
theorem agentIndexMap_eq_find {n : ℕ} (s : EnvState n) (c : ℕ × ℕ) :
    agentIndexMap s c
      = match (List.finRange n).find?
          (fun i => decide (s.agents.positions i = c)) with
        | some i => i.val
        | none => n := by
  unfold agentIndexMap
  rw [List.foldl_reverse]
  exact foldr_update_eq_find _ _ _ c

/-- On a strictly increasing list, `find?` returns the minimal
satisfying element. -/
theorem find?_pairwise_first {n : ℕ} (p : Fin n → Bool) (j : Fin n)
    (hpj : p j = true) (hmin : ∀ i : Fin n, i < j → p i = false) :
    ∀ l : List (Fin n), l.Pairwise (· < ·) → j ∈ l → l.find? p = some j := by
  intro l
  induction l with
  | nil =>
    intro _ hmem
    cases hmem
  | cons a t ih =>
    intro hpw hmem
    rcases List.mem_cons.mp hmem with heq | hmt
    · subst heq
      rw [List.find?_cons_of_pos _ hpj]
    · have ha : a < j := (List.pairwise_cons.mp hpw).1 j hmt
      rw [@List.find?_cons_of_neg (Fin n) p a t (by simp [hmin a ha])]
      exact ih (List.pairwise_cons.mp hpw).2 hmt

/-- Claim C7 (amended): the occupant-index map is built WITHOUT any
existence mask — every slot, ghost or living, scatters its position —
and the reverse iteration order makes the lowest slot index win each
cell, while unoccupied cells keep the fill value `n`.  Consequently a
ghost slot whose stale position is alone on its cell does contribute
its occupant index there. -/
theorem occupant_index_map_unmasked_lowest {n : ℕ} (s : EnvState n) (c : ℕ × ℕ) :
    ((∀ i : Fin n, s.agents.positions i ≠ c) → agentIndexMap s c = n)
    ∧ (∀ j : Fin n, s.agents.positions j = c →
        (∀ i : Fin n, i < j → s.agents.positions i ≠ c) →
        agentIndexMap s c = j.val) := by
  constructor
  · intro hnone
    rw [agentIndexMap_eq_find,
      List.find?_eq_none.mpr (fun x _ => by simp [hnone x])]
  · intro j hj hmin
    rw [agentIndexMap_eq_find,
      find?_pairwise_first _ j (decide_eq_true hj)
        (fun i hi => by simp [hmin i hi])
        _ (List.pairwise_lt_finRange n) (List.mem_finRange j)]

/-- Claim C7, counterexample: in `stateC7` the non-existing slot 1
still writes its occupant index at its stale position `(1,0)`, and the
derived parent-pointer map reports slot 0 as the parent there — so the
living observer slot 0 sees an "occupant is my offspring" flag raised
by a ghost.  Ghosts are NOT excluded by the existence mask before the
scatter. -/
theorem ghost_slot_contributes_occupant_index_counterexample :
    stateC7.agents.areExisting 1 = false
    ∧ agentIndexMap stateC7 (1, 0) = 1
    ∧ agentParentMap stateC7 (by norm_num) (1, 0) = 0 := by
  refine ⟨rfl, ?_, ?_⟩ <;> decide

/-- Witness for the amended C7: the ghost slot 1 of `stateC7` is the
lowest (only) slot on `(1,0)` and indeed owns the occupant index
there. -/
theorem occupant_index_map_unmasked_lowest_witness :
    agentIndexMap stateC7 (1, 0) = 1 :=
  (occupant_index_map_unmasked_lowest stateC7 (1, 0)).2 1 (by decide) (by decide)
